import Mathlib

/-!
Verification of the `unique_ptr` implementations of the repository
`laxodev/Unique-pointer-implementation` (file `src/smart-pointer/smart_pointer.hpp`).

The file contains two independent class templates named `unique_ptr`:
* a general variant `unique_ptr<T, deleter>` with a pluggable deletion
  policy (lines 13-91), modelled in the namespace `General`;
* a simplified variant `unique_ptr<T>` fixed to `delete` (lines 94-156),
  modelled in the namespace `Simple`.

Modelling conventions of the shallow embedding:
* Raw pointers `T*` are `Ptr := Option Nat`; `none` is `nullptr` (the
  empty sentinel) and `some r` a non-null reference to resource `r`.
* Invocations of the deletion policy are the observable events: every
  operation whose C++ body may invoke `operator_delete` (general
  variant) or `delete` (simplified variant) returns, besides its result
  and its updated object state, the list of pointer arguments the
  deletion policy was invoked on, in source order.  An invocation on
  `none` models `operator_delete(nullptr)` / `delete nullptr`.
* `throw std::invalid_argument` is `Except.error` of the thrown message;
  the returned handle component in the error case is the object's state
  when the exception leaves the method.
* The pointee heap is a function `Nat → Nat` passed to the dereference
  operator.
-/

/-- A raw `T*` value: `none` is `nullptr`, `some r` references resource `r`. -/
abbrev Ptr := Option Nat

namespace General

/-- The general variant `unique_ptr<T, deleter>` (smart_pointer.hpp lines
13-91): its only data member is `T * ptr_resource = nullptr`.  The stored
`deleter operator_delete` is stateless in the source (the default
`unique_ptr_deleter<T>` is an empty class); invocations of it are recorded
as events rather than stored as data. -/
structure unique_ptr where
  ptr_resource : Ptr
deriving DecidableEq, Repr

namespace unique_ptr

/-- Models `explicit unique_ptr(T* raw_resource)` (line 22): takes ownership of
the caller-supplied raw pointer. -/
def mk_raw (raw_resource : Ptr) : unique_ptr := ⟨raw_resource⟩

/-- Models `unique_ptr(std::nullptr_t)` (line 23). -/
def mk_null : unique_ptr := ⟨none⟩

/-- Models `unique_ptr()` (line 25): default construction, `ptr_resource = nullptr`
by the member initializer on line 17. -/
def mk_default : unique_ptr := ⟨none⟩

/-- Models `~unique_ptr()` (lines 28-31): `operator_delete(ptr_resource);`.
Returns the deleter invocations of the destructor body: exactly one,
on the currently held pointer (also when it is `nullptr`). -/
def dtor (h : unique_ptr) : List Ptr := [h.ptr_resource]

/-- Models `explicit operator bool()` (lines 48-51): `return this->ptr_resource;`,
the pointer-to-bool conversion, i.e. `true` iff the pointer is non-null. -/
def toBool (h : unique_ptr) : Bool := h.ptr_resource.isSome

/-- Models `T* release()` (lines 53-56): `return std::exchange(ptr_resource, nullptr);`.
Returns (returned pointer, updated object, deleter invocations). -/
def release (h : unique_ptr) : Ptr × unique_ptr × List Ptr :=
  (h.ptr_resource, ⟨none⟩, [])

/-- Models `T* get() const` (lines 58-61). -/
def get (h : unique_ptr) : Ptr := h.ptr_resource

/-- Models `void swap(unique_ptr<T>& resource_ptr)` (lines 63-66), called on two
distinct objects: `std::swap(ptr_resource, resource_ptr.ptr_resource);`.
Returns ((updated `this`, updated argument), deleter invocations). -/
def swap (this other : unique_ptr) : (unique_ptr × unique_ptr) × List Ptr :=
  ((⟨other.ptr_resource⟩, ⟨this.ptr_resource⟩), [])

/-- Models `swap` called with `this` and the argument aliasing one object, i.e.
`std::swap(x, x)` on the single member: `tmp = x; x = x; x = tmp`, which
leaves the member unchanged.  Returns (updated object, deleter invocations). -/
def swapSelf (this : unique_ptr) : unique_ptr × List Ptr :=
  let tmp := this.ptr_resource
  let _x := this.ptr_resource
  let x := tmp
  (⟨x⟩, [])

/-- Models `unique_ptr(unique_ptr&& move)` (lines 38-41): the new object starts
with `ptr_resource = nullptr` (line 17), then `move.swap(*this);`.
Returns ((constructed object, updated source), deleter invocations). -/
def moveCtor (mv : unique_ptr) : (unique_ptr × unique_ptr) × List Ptr :=
  let this0 : unique_ptr := ⟨none⟩
  let ((mv', this'), evs) := swap mv this0
  ((this', mv'), evs)

/-- Models `unique_ptr& operator=(unique_ptr&& move)` (lines 43-47) on two distinct
objects: `move.swap(*this); return *this;`.
Returns ((updated `this`, updated source), deleter invocations). -/
def moveAssign (this mv : unique_ptr) : (unique_ptr × unique_ptr) × List Ptr :=
  let ((mv', this'), evs) := swap mv this
  ((this', mv'), evs)

/-- Self-move-assignment `x = std::move(x)` (lines 43-47 with `move` and
`*this` aliasing one object): `move.swap(*this)` becomes the aliased
`std::swap(x, x)`. -/
def selfMoveAssign (this : unique_ptr) : unique_ptr × List Ptr :=
  swapSelf this

/-- Models `void reset(T* resource_ptr)` (lines 68-79): throws
`std::invalid_argument` on `nullptr` leaving the object untouched;
otherwise `operator_delete(ptr_resource); ptr_resource = nullptr;
std::swap(ptr_resource, resource_ptr);`.
Returns (outcome, updated object, deleter invocations). -/
def reset (h : unique_ptr) (resource_ptr : Ptr) :
    Except String Unit × unique_ptr × List Ptr :=
  if resource_ptr = none then
    (Except.error "An invalid pointer was passed, resources will not be swapped",
     h, [])
  else
    (Except.ok (), ⟨resource_ptr⟩, [h.ptr_resource])

/-- Models `T* operator->()` (lines 82-85). -/
def opArrow (h : unique_ptr) : Ptr := h.ptr_resource

/-- Models `T& operator*()` (lines 86-89): dereferences `ptr_resource` in the
pointee heap `mem`; on an empty handle the dereference is undefined
behaviour in C++, modelled as `none`. -/
def opStar (mem : Nat → Nat) (h : unique_ptr) : Option Nat :=
  h.ptr_resource.map mem

end unique_ptr

end General

namespace Simple

/-- The simplified variant `unique_ptr<T>` (smart_pointer.hpp lines
94-156): data member `T * ptr_resource = nullptr`, destruction fixed to
`delete`.  It has no default constructor, no move operations and no
`operator bool`. -/
structure unique_ptr where
  ptr_resource : Ptr
deriving DecidableEq, Repr

namespace unique_ptr

/-- Models `explicit unique_ptr(T* raw_resource)` (line 102). -/
def mk_raw (raw_resource : Ptr) : unique_ptr := ⟨raw_resource⟩

/-- Models `unique_ptr(std::nullptr_t)` (line 103). -/
def mk_null : unique_ptr := ⟨none⟩

/-- Models `~unique_ptr()` (lines 106-109): `delete ptr_resource;`.  Exactly one
invocation of the (fixed, default) deletion policy, on the held pointer. -/
def dtor (h : unique_ptr) : List Ptr := [h.ptr_resource]

/-- Models `T* release()` (lines 115-121): saves the pointer in a local, nulls the
member and returns the saved pointer. -/
def release (h : unique_ptr) : Ptr × unique_ptr × List Ptr :=
  let resource_ptr := h.ptr_resource
  (resource_ptr, ⟨none⟩, [])

/-- Models `T* get() const` (lines 123-126). -/
def get (h : unique_ptr) : Ptr := h.ptr_resource

/-- Models `void swap(const unique_ptr& resource_ptr)` (lines 128-131):
`std::swap(ptr_resource, resource_ptr.ptr_resource);` on two distinct
objects.  (The parameter is declared `const&` in the source, so this
member only compiles as written if the const qualifier is dropped at the
call; the body's evident exchange is what is modelled.) -/
def swap (this other : unique_ptr) : (unique_ptr × unique_ptr) × List Ptr :=
  ((⟨other.ptr_resource⟩, ⟨this.ptr_resource⟩), [])

/-- Models `void reset(T* resource_ptr)` (lines 133-144): identical body to the
general variant with `delete` in place of `operator_delete`. -/
def reset (h : unique_ptr) (resource_ptr : Ptr) :
    Except String Unit × unique_ptr × List Ptr :=
  if resource_ptr = none then
    (Except.error "An invalid pointer was passed, resources will not be swapped",
     h, [])
  else
    (Except.ok (), ⟨resource_ptr⟩, [h.ptr_resource])

/-- Models `T* operator->()` (lines 147-150). -/
def opArrow (h : unique_ptr) : Ptr := h.ptr_resource

/-- Models `T& operator*()` (lines 151-154). -/
def opStar (mem : Nat → Nat) (h : unique_ptr) : Option Nat :=
  h.ptr_resource.map mem

end unique_ptr

end Simple

namespace General

/-- One operation of a client program on a collection of general-variant
handles, identified by their index in the machine state.  `construct`
covers the raw, `nullptr` and default constructors (all set
`ptr_resource` to the given value); `moveCtor src` move-constructs a new
handle from handle `src`; `destroy` runs a handle's destructor. -/
inductive Op where
  | construct (raw : Ptr)
  | moveCtor (src : Nat)
  | moveAssign (dst src : Nat)
  | resetOp (h : Nat) (raw : Ptr)
  | releaseOp (h : Nat)
  | swapOp (a b : Nat)
  | destroy (h : Nat)
deriving DecidableEq, Repr

/-- Machine state: one entry per handle ever constructed; `some h` is a
live handle with state `h`, `none` a handle whose destructor has run. -/
abbrev MState := List (Option unique_ptr)

/-- The handle at index `i`, if it exists and is live. -/
def getH (s : MState) (i : Nat) : Option unique_ptr :=
  match s[i]? with
  | some (some h) => some h
  | _ => none

/-- One machine step: applies the operation's member-function model to the
addressed handles and returns the new state together with the deletion
policy invocations the step performed.  Operations addressing a destroyed
or nonexistent handle are no-ops (such a client program is not a valid
C++ program; making them no-ops keeps `step` total). -/
def step (s : MState) : Op → MState × List Ptr
  | .construct raw => (s ++ [some (unique_ptr.mk_raw raw)], [])
  | .moveCtor src =>
      match getH s src with
      | none => (s, [])
      | some hs =>
          let ((dst', src'), evs) := unique_ptr.moveCtor hs
          (s.set src (some src') ++ [some dst'], evs)
  | .moveAssign dst src =>
      if dst = src then
        match getH s dst with
        | none => (s, [])
        | some h =>
            let (h', evs) := unique_ptr.selfMoveAssign h
            (s.set dst (some h'), evs)
      else
        match getH s dst, getH s src with
        | some hd, some hs =>
            let ((d', s2), evs) := unique_ptr.moveAssign hd hs
            ((s.set dst (some d')).set src (some s2), evs)
        | _, _ => (s, [])
  | .resetOp i raw =>
      match getH s i with
      | none => (s, [])
      | some h =>
          let (_, h', evs) := unique_ptr.reset h raw
          (s.set i (some h'), evs)
  | .releaseOp i =>
      match getH s i with
      | none => (s, [])
      | some h =>
          let (_, h', evs) := unique_ptr.release h
          (s.set i (some h'), evs)
  | .swapOp a b =>
      if a = b then
        match getH s a with
        | none => (s, [])
        | some h =>
            let (h', evs) := unique_ptr.swapSelf h
            (s.set a (some h'), evs)
      else
        match getH s a, getH s b with
        | some ha, some hb =>
            let ((a', b'), evs) := unique_ptr.swap ha hb
            ((s.set a (some a')).set b (some b'), evs)
        | _, _ => (s, [])
  | .destroy i =>
      match getH s i with
      | none => (s, [])
      | some h => (s.set i none, unique_ptr.dtor h)

/-- Runs a list of operations from a state, accumulating the deletion
policy invocations in order. -/
def runFrom (s : MState) : List Op → MState × List Ptr
  | [] => (s, [])
  | op :: ops =>
      let p1 := step s op
      let p2 := runFrom p1.1 ops
      (p2.1, p1.2 ++ p2.2)

/-- Runs a client program on an initially empty collection of handles. -/
def run (ops : List Op) : MState × List Ptr := runFrom [] ops

/-- The non-null resource references an operation supplies to the handle
collection from outside: the argument of a constructor or of `reset`.
The caller-enforced precondition of the source (line 20: the resource is
freshly allocated and owned by nobody else) says these are pairwise
distinct and not references already owned. -/
def suppliedOf : Op → List Nat
  | .construct (some n) => [n]
  | .resetOp _ (some n) => [n]
  | _ => []

/-- All non-null resource references a client program supplies. -/
def supplied : List Op → List Nat
  | [] => []
  | op :: ops => suppliedOf op ++ supplied ops

/-- Whether a machine-state entry is a live handle owning resource `r`. -/
def ownsR (r : Nat) : Option unique_ptr → Bool
  | some h => h.ptr_resource == some r
  | none => false

/-- How many live handles of the state currently own resource `r`. -/
def owners (s : MState) (r : Nat) : Nat := s.countP (ownsR r)

/-- The elementary actions of `reset`'s success path (lines 74-78):
`deleterInvoked p` records an invocation of the deletion policy on `p`,
`memberAssigned p` records `ptr_resource` being set to `p`. -/
inductive ResetAction where
  | deleterInvoked (arg : Ptr)
  | memberAssigned (val : Ptr)
deriving DecidableEq, Repr

/-- The action sequence `reset` (lines 68-79) executes, in source order:
nothing when the `nullptr` check on lines 71-72 throws; otherwise
`operator_delete(ptr_resource);` then `ptr_resource = nullptr;` then
`std::swap(ptr_resource, resource_ptr);`, after which the member holds
the new pointer. -/
def resetActions (h : unique_ptr) (resource_ptr : Ptr) : List ResetAction :=
  if resource_ptr = none then []
  else [.deleterInvoked h.ptr_resource, .memberAssigned none,
        .memberAssigned resource_ptr]

lemma getH_eq_some {s : MState} {i : Nat} {h : unique_ptr} :
    getH s i = some h ↔ s[i]? = some (some h) := by
  unfold getH
  cases hq : s[i]? with
  | none => simp
  | some oh => cases oh <;> simp

lemma owners_set {s : MState} {i : Nat} {oldv : Option unique_ptr}
    (v : Option unique_ptr) (r : Nat) (hq : s[i]? = some oldv) :
    owners (s.set i v) r + (if ownsR r oldv then 1 else 0)
      = owners s r + (if ownsR r v then 1 else 0) := by
  rcases List.getElem?_eq_some_iff.mp hq with ⟨hi, hget⟩
  have h1 := List.countP_set (ownsR r) s i v hi
  have h2 := List.boole_getElem_le_countP (ownsR r) s i hi
  rw [hget] at h1 h2
  unfold owners
  omega

lemma owners_append_one (s : MState) (x : Option unique_ptr) (r : Nat) :
    owners (s ++ [x]) r = owners s r + (if ownsR r x then 1 else 0) := by
  simp [owners, List.countP_cons]

lemma count_singleton_ownsR (h : unique_ptr) (r : Nat) :
    ([h.ptr_resource].count (some r)) = (if ownsR r (some h) then 1 else 0) := by
  simp [ownsR, List.count_cons]

/-- Every machine step keeps the combined number of current owners of `r`
plus deleter invocations on `r` bounded by the number of copies of `r` the
step supplies from outside. -/
lemma step_bound (s : MState) (op : Op) (r : Nat) :
    owners (step s op).1 r + ((step s op).2).count (some r)
      ≤ owners s r + (suppliedOf op).count r := by
  cases op with
  | construct raw =>
      cases raw with
      | none =>
          simp [step, suppliedOf, owners_append_one, ownsR, unique_ptr.mk_raw]
      | some n =>
          by_cases hnr : n = r <;>
            simp [step, suppliedOf, owners_append_one, ownsR, unique_ptr.mk_raw,
              List.count_cons, beq_iff_eq, hnr]
  | moveCtor src =>
      cases hg : getH s src with
      | none => simp [step, hg, suppliedOf]
      | some hs =>
          have ho := owners_set (some (⟨none⟩ : unique_ptr)) r (getH_eq_some.mp hg)
          simp [step, hg, unique_ptr.moveCtor, unique_ptr.swap, suppliedOf,
            owners_append_one, ownsR, List.count_nil] at *
          omega
  | moveAssign dst src =>
      by_cases hds : dst = src
      · subst hds
        cases hg : getH s dst with
        | none => simp [step, hg, suppliedOf]
        | some h =>
            have ho := owners_set
              (some (⟨h.ptr_resource⟩ : unique_ptr)) r (getH_eq_some.mp hg)
            simp [step, hg, if_pos rfl, unique_ptr.selfMoveAssign,
              unique_ptr.swapSelf, suppliedOf, ownsR, List.count_nil] at *
            omega
      · cases hg1 : getH s dst with
        | none => simp [step, hg1, hds, suppliedOf]
        | some hd =>
            cases hg2 : getH s src with
            | none => simp [step, hg1, hg2, hds, suppliedOf]
            | some hs =>
                have hq2 : (s.set dst (some (⟨hs.ptr_resource⟩ : unique_ptr)))[src]?
                    = some (some hs) := by
                  rw [List.getElem?_set_ne hds]
                  exact getH_eq_some.mp hg2
                have ho1 := owners_set
                  (some (⟨hs.ptr_resource⟩ : unique_ptr)) r (getH_eq_some.mp hg1)
                have ho2 := owners_set
                  (some (⟨hd.ptr_resource⟩ : unique_ptr)) r hq2
                simp [step, hg1, hg2, hds, if_neg hds, unique_ptr.moveAssign,
                  unique_ptr.swap, suppliedOf, ownsR, List.count_nil] at *
                omega
  | resetOp i raw =>
      cases hg : getH s i with
      | none => simp [step, hg, suppliedOf]
      | some h =>
          cases raw with
          | none =>
              have ho := owners_set (some h) r (getH_eq_some.mp hg)
              simp [step, hg, unique_ptr.reset, if_pos rfl, suppliedOf,
                List.count_nil] at *
              omega
          | some n =>
              have ho := owners_set
                (some (⟨some n⟩ : unique_ptr)) r (getH_eq_some.mp hg)
              simp [step, hg, unique_ptr.reset, suppliedOf, ownsR,
                List.count_cons, beq_iff_eq] at *
              omega
  | releaseOp i =>
      cases hg : getH s i with
      | none => simp [step, hg, suppliedOf]
      | some h =>
          have ho := owners_set (some (⟨none⟩ : unique_ptr)) r (getH_eq_some.mp hg)
          simp [step, hg, unique_ptr.release, suppliedOf, ownsR,
            List.count_nil] at *
          omega
  | swapOp a b =>
      by_cases hab : a = b
      · subst hab
        cases hg : getH s a with
        | none => simp [step, hg, suppliedOf]
        | some h =>
            have ho := owners_set
              (some (⟨h.ptr_resource⟩ : unique_ptr)) r (getH_eq_some.mp hg)
            simp [step, hg, if_pos rfl, unique_ptr.swapSelf, suppliedOf,
              ownsR, List.count_nil] at *
            omega
      · cases hg1 : getH s a with
        | none => simp [step, hg1, hab, suppliedOf]
        | some ha =>
            cases hg2 : getH s b with
            | none => simp [step, hg1, hg2, hab, suppliedOf]
            | some hb =>
                have hq2 : (s.set a (some (⟨hb.ptr_resource⟩ : unique_ptr)))[b]?
                    = some (some hb) := by
                  rw [List.getElem?_set_ne hab]
                  exact getH_eq_some.mp hg2
                have ho1 := owners_set
                  (some (⟨hb.ptr_resource⟩ : unique_ptr)) r (getH_eq_some.mp hg1)
                have ho2 := owners_set
                  (some (⟨ha.ptr_resource⟩ : unique_ptr)) r hq2
                simp [step, hg1, hg2, hab, if_neg hab, unique_ptr.swap,
                  suppliedOf, ownsR, List.count_nil] at *
                omega
  | destroy i =>
      cases hg : getH s i with
      | none => simp [step, hg, suppliedOf]
      | some h =>
          have ho := owners_set none r (getH_eq_some.mp hg)
          have hev := count_singleton_ownsR h r
          simp [step, hg, unique_ptr.dtor, suppliedOf, ownsR,
            List.count_nil] at *
          omega

/-- Accumulated form of `step_bound` over a whole client program. -/
lemma runFrom_bound (r : Nat) :
    ∀ (ops : List Op) (s : MState),
      owners (runFrom s ops).1 r + ((runFrom s ops).2).count (some r)
        ≤ owners s r + (supplied ops).count r
  | [], s => by simp [runFrom, supplied]
  | op :: ops, s => by
      have h1 := step_bound s op r
      have h2 := runFrom_bound r ops (step s op).1
      simp only [runFrom, supplied, List.count_append]
      omega

end General

/-- C1: across any finite client program (constructions, move operations,
resets, releases, swaps, destructions) on any collection of handles in
which every externally supplied non-null resource reference is fresh
(pairwise distinct — the caller precondition of smart_pointer.hpp line
20/25), the deletion policy is invoked on any given resource reference at
most once; and the destructor of a handle owning `r` invokes the deletion
policy on `r` exactly once. -/
theorem C1_deleter_at_most_once (ops : List General.Op)
    (hfresh : (General.supplied ops).Nodup) :
    (∀ r : Nat, ((General.run ops).2).count (some r) ≤ 1)
    ∧ (∀ r : Nat, (General.unique_ptr.dtor ⟨some r⟩).count (some r) = 1) := by
  constructor
  · intro r
    have hb := General.runFrom_bound r ops []
    have hc := List.nodup_iff_count_le_one.mp hfresh r
    simp only [General.run]
    simp [General.owners] at hb
    omega
  · intro r
    simp [General.unique_ptr.dtor]

/-- Witness for C1 at a concrete program: construct a handle on resource 5,
reset it to resource 7, then destroy it. -/
theorem C1_deleter_at_most_once_witness :
    (General.supplied [General.Op.construct (some 5),
        General.Op.resetOp 0 (some 7), General.Op.destroy 0]).Nodup
    ∧ ((General.run [General.Op.construct (some 5),
        General.Op.resetOp 0 (some 7), General.Op.destroy 0]).2).count (some 5) ≤ 1 := by
  constructor
  · decide
  · exact (C1_deleter_at_most_once _ (by decide)).1 5

/-- C2: `reset(nullptr)` on either variant throws `std::invalid_argument`,
leaves the handle's owned resource exactly as it was, and invokes the
deletion policy zero times. -/
theorem C2_reset_null_rejected (g : General.unique_ptr) (s : Simple.unique_ptr) :
    General.unique_ptr.reset g none
      = (Except.error "An invalid pointer was passed, resources will not be swapped",
         g, [])
    ∧ Simple.unique_ptr.reset s none
      = (Except.error "An invalid pointer was passed, resources will not be swapped",
         s, []) :=
  ⟨rfl, rfl⟩

/-- C3: a successful `reset(R2)` invokes the deletion policy on the
previously held pointer exactly once, the invocation (the first elementary
action) happens strictly before the member is assigned the new pointer
(the last elementary action), and afterwards `get()` returns `R2`.  Both
variants perform the same transition. -/
theorem C3_reset_success (g : General.unique_ptr) (s : Simple.unique_ptr) (r2 : Nat) :
    General.unique_ptr.reset g (some r2)
      = (Except.ok (), ⟨some r2⟩, [g.ptr_resource])
    ∧ ((General.unique_ptr.reset g (some r2)).2.2).count g.ptr_resource = 1
    ∧ General.unique_ptr.get (General.unique_ptr.reset g (some r2)).2.1 = some r2
    ∧ General.resetActions g (some r2)
      = [General.ResetAction.deleterInvoked g.ptr_resource,
         General.ResetAction.memberAssigned none,
         General.ResetAction.memberAssigned (some r2)]
    ∧ Simple.unique_ptr.reset s (some r2)
      = (Except.ok (), ⟨some r2⟩, [s.ptr_resource])
    ∧ Simple.unique_ptr.get (Simple.unique_ptr.reset s (some r2)).2.1 = some r2 := by
  refine ⟨rfl, ?_, rfl, rfl, rfl, rfl⟩
  simp [General.unique_ptr.reset]

/-- C4: `release()` returns the previously owned pointer (the empty
sentinel when the handle was empty), leaves the handle empty, invokes the
deletion policy zero times, and the released handle's later destruction
invokes the deletion policy on no non-null reference (in particular not on
the returned one). -/
theorem C4_release_transfers_out (g : General.unique_ptr) (s : Simple.unique_ptr)
    (r : Nat) :
    General.unique_ptr.release g = (g.ptr_resource, ⟨none⟩, [])
    ∧ (General.unique_ptr.dtor (General.unique_ptr.release g).2.1).count (some r) = 0
    ∧ Simple.unique_ptr.release s = (s.ptr_resource, ⟨none⟩, [])
    ∧ (Simple.unique_ptr.dtor (Simple.unique_ptr.release s).2.1).count (some r) = 0 := by
  refine ⟨rfl, ?_, rfl, ?_⟩ <;>
    simp [General.unique_ptr.dtor, General.unique_ptr.release,
      Simple.unique_ptr.dtor, Simple.unique_ptr.release, List.count_cons]

/-- C5: move-construction and move-assignment exchange the owned-resource
state symmetrically — the destination ends up with the source's pointer,
the moved-from source with the destination's previous pointer (`nullptr`
for the fresh instance of move-construction) — and perform no deletion
policy invocation. -/
theorem C5_move_is_symmetric_exchange (dst src : General.unique_ptr) :
    General.unique_ptr.moveCtor src = ((⟨src.ptr_resource⟩, ⟨none⟩), [])
    ∧ General.unique_ptr.moveAssign dst src
      = ((⟨src.ptr_resource⟩, ⟨dst.ptr_resource⟩), []) :=
  ⟨rfl, rfl⟩

/-- C6: self-move-assignment (`h = std::move(h)`, the aliased
`std::swap(x, x)`) leaves the handle's owned resource unchanged and
invokes the deletion policy zero times. -/
theorem C6_self_move_noop (h : General.unique_ptr) :
    General.unique_ptr.selfMoveAssign h = (h, []) :=
  rfl

/-- C7: `swap` exchanges the owned-resource state of the two handles
(empty or owning) and invokes the deletion policy on neither; both results
are ordinary handle values. -/
theorem C7_swap_exchanges (a b : General.unique_ptr) (c d : Simple.unique_ptr) :
    General.unique_ptr.swap a b = ((⟨b.ptr_resource⟩, ⟨a.ptr_resource⟩), [])
    ∧ Simple.unique_ptr.swap c d = ((⟨d.ptr_resource⟩, ⟨c.ptr_resource⟩), []) :=
  ⟨rfl, rfl⟩

/-- C8: the explicit boolean conversion is true exactly when the handle
holds a non-null pointer: false after default or `nullptr` construction,
true after non-null construction, successful `reset` or move-in, and
false again after `release()`. -/
theorem C8_bool_matches_emptiness (h dst : General.unique_ptr) (r : Nat) :
    General.unique_ptr.toBool h = h.ptr_resource.isSome
    ∧ General.unique_ptr.toBool General.unique_ptr.mk_default = false
    ∧ General.unique_ptr.toBool General.unique_ptr.mk_null = false
    ∧ General.unique_ptr.toBool (General.unique_ptr.mk_raw (some r)) = true
    ∧ General.unique_ptr.toBool (General.unique_ptr.reset h (some r)).2.1 = true
    ∧ General.unique_ptr.toBool
        (General.unique_ptr.moveCtor (General.unique_ptr.mk_raw (some r))).1.1 = true
    ∧ General.unique_ptr.toBool
        (General.unique_ptr.moveAssign dst (General.unique_ptr.mk_raw (some r))).1.1
        = true
    ∧ General.unique_ptr.toBool (General.unique_ptr.release h).2.1 = false :=
  ⟨rfl, rfl, rfl, rfl, rfl, rfl, rfl, rfl⟩

/-- C9: on the operations both variants provide (construction from a raw
or null pointer, `get`, `release`, `reset`, `swap`, dereference,
destruction), the simplified variant and the general variant with the
default deletion policy produce the same results, the same deletion policy
invocations and the same owned-resource state transitions. -/
theorem C9_general_subsumes_simple (p q : Ptr) (mem : Nat → Nat) :
    (General.unique_ptr.mk_raw p).ptr_resource
        = (Simple.unique_ptr.mk_raw p).ptr_resource
    ∧ General.unique_ptr.mk_null.ptr_resource = Simple.unique_ptr.mk_null.ptr_resource
    ∧ General.unique_ptr.get ⟨p⟩ = Simple.unique_ptr.get ⟨p⟩
    ∧ General.unique_ptr.dtor ⟨p⟩ = Simple.unique_ptr.dtor ⟨p⟩
    ∧ (General.unique_ptr.release ⟨p⟩).1 = (Simple.unique_ptr.release ⟨p⟩).1
    ∧ (General.unique_ptr.release ⟨p⟩).2.1.ptr_resource
        = (Simple.unique_ptr.release ⟨p⟩).2.1.ptr_resource
    ∧ (General.unique_ptr.release ⟨p⟩).2.2 = (Simple.unique_ptr.release ⟨p⟩).2.2
    ∧ (General.unique_ptr.reset ⟨p⟩ q).1 = (Simple.unique_ptr.reset ⟨p⟩ q).1
    ∧ (General.unique_ptr.reset ⟨p⟩ q).2.1.ptr_resource
        = (Simple.unique_ptr.reset ⟨p⟩ q).2.1.ptr_resource
    ∧ (General.unique_ptr.reset ⟨p⟩ q).2.2 = (Simple.unique_ptr.reset ⟨p⟩ q).2.2
    ∧ (General.unique_ptr.swap ⟨p⟩ ⟨q⟩).1.1.ptr_resource
        = (Simple.unique_ptr.swap ⟨p⟩ ⟨q⟩).1.1.ptr_resource
    ∧ (General.unique_ptr.swap ⟨p⟩ ⟨q⟩).1.2.ptr_resource
        = (Simple.unique_ptr.swap ⟨p⟩ ⟨q⟩).1.2.ptr_resource
    ∧ (General.unique_ptr.swap ⟨p⟩ ⟨q⟩).2 = (Simple.unique_ptr.swap ⟨p⟩ ⟨q⟩).2
    ∧ General.unique_ptr.opArrow ⟨p⟩ = Simple.unique_ptr.opArrow ⟨p⟩
    ∧ General.unique_ptr.opStar mem ⟨p⟩ = Simple.unique_ptr.opStar mem ⟨p⟩ := by
  cases q <;>
    exact ⟨rfl, rfl, rfl, rfl, rfl, rfl, rfl, rfl, rfl, rfl, rfl, rfl, rfl, rfl, rfl⟩

/-- C10: a moved-from handle is, as a value, exactly a default-constructed
handle (`ptr_resource = nullptr`): after move-construction, or
move-assignment into an empty destination, the source equals
`mk_default`, so `get` returns the empty sentinel, `release` returns the
empty sentinel, the boolean conversion is false, and every operation on it
behaves as on a default-constructed handle. -/
theorem C10_moved_from_is_default (src : General.unique_ptr) :
    (General.unique_ptr.moveCtor src).1.2 = General.unique_ptr.mk_default
    ∧ (General.unique_ptr.moveAssign General.unique_ptr.mk_default src).1.2
        = General.unique_ptr.mk_default
    ∧ General.unique_ptr.get General.unique_ptr.mk_default = none
    ∧ (General.unique_ptr.release General.unique_ptr.mk_default).1 = none
    ∧ General.unique_ptr.toBool General.unique_ptr.mk_default = false :=
  ⟨rfl, rfl, rfl, rfl, rfl⟩
